import Mathlib

/-!
Verification of the thumbnail frame-acquisition-and-conversion pipeline
(src/app/src/main/jni/thumbnail.cpp, with the older variant in
src/app/src/main/jni/thumbnail_fast.cpp).

The C code is shallowly embedded: `double` values are modelled as exact
rationals (every constant the code compares against — 0.0, 0.5, 1.0, 1.5,
2.0, 3.0, 5.0 — is a dyadic rational, exactly representable in IEEE double,
so the comparisons performed by the code are exact and the rational model
agrees with the machine arithmetic on all inputs considered here); the
single-precision `float` arithmetic of the output-size computation in
frame_to_bitmap is modelled bit-faithfully by `fl32`, an exact
round-to-nearest-even function with a 24-bit significand and unbounded
exponent, which coincides with IEEE-754 binary32 throughout the normal
range — and every value arising in that computation (quotients of
positive ints, their products, all in [2⁻³¹, 2³²]) lies well inside the
normal range, far from overflow and subnormals; `int`/`int64_t` are
modelled as `Int`; C pointers that may be NULL are modelled as `Option`;
outcomes of external FFmpeg calls (file open, decoder registry lookup,
SwsContext construction, hardware probe) are inputs of the model.
-/

namespace Thumb

/-- SWS_FAST_BILINEAR flag of libswscale (value 1). -/
def SWS_FAST_BILINEAR : Int := 1

/-- SWS_POINT flag of libswscale (value 0x10): nearest-neighbour point sampling. -/
def SWS_POINT : Int := 16

/-- SWS_LANCZOS flag of libswscale (value 0x200). -/
def SWS_LANCZOS : Int := 512

/-- AVSEEK_FLAG_BACKWARD (value 1): seek to nearest keyframe at or before the target. -/
def AVSEEK_FLAG_BACKWARD : Int := 1

/-- AVSEEK_FLAG_ANY (value 4): seek to nearest frame in either direction. -/
def AVSEEK_FLAG_ANY : Int := 4

/-- QUALITY_FAST from ThumbnailQuality (thumbnail.cpp line 347). -/
def QUALITY_FAST : Int := 0

/-- QUALITY_NORMAL from ThumbnailQuality (thumbnail.cpp line 348). -/
def QUALITY_NORMAL : Int := 1

/-- QUALITY_HQ from ThumbnailQuality (thumbnail.cpp line 349). -/
def QUALITY_HQ : Int := 2

/-- MAX_FRAMES safety limit of the decode loop (thumbnail.cpp line 826). -/
def MAX_FRAMES : Nat := 300

/-- FF_THREAD_FRAME constant of libavcodec. -/
def FF_THREAD_FRAME : Int := 1

/-- FF_THREAD_SLICE constant of libavcodec. -/
def FF_THREAD_SLICE : Int := 2

/-- AVDISCARD_NONE constant of libavcodec. -/
def AVDISCARD_NONE : Int := -16

/-- AVDISCARD_NONREF constant of libavcodec. -/
def AVDISCARD_NONREF : Int := 8

/-- AVDISCARD_BIDIR constant of libavcodec. -/
def AVDISCARD_BIDIR : Int := 16

/-- AVDISCARD_ALL constant of libavcodec. -/
def AVDISCARD_ALL : Int := 48

/-- C cast `(int)` applied to a nonnegative-or-negative rational: truncation
toward zero (the code only ever truncates nonnegative products, where this
coincides with the floor). -/
def cint (q : ℚ) : Int := if q < 0 then -⌊-q⌋ else ⌊q⌋

/-- The two `if (x < 1) x = 1;` clamps of frame_to_bitmap
(thumbnail.cpp lines 406-407). -/
def clamp1 (x : Int) : Int := if x < 1 then 1 else x

/-- skip_tolerance selected by the quality switch in the decode loop
(thumbnail.cpp lines 849-863): FAST 3.0, HQ 0.5, NORMAL/default 1.5. -/
def skip_tolerance (quality : Int) : ℚ :=
  if quality = QUALITY_FAST then 3
  else if quality = QUALITY_HQ then (1 : ℚ) / 2
  else (3 : ℚ) / 2

/-- match_tolerance selected by the quality switch in the decode loop
(thumbnail.cpp lines 849-863): FAST 2.0, HQ 0.5, NORMAL/default 1.0. -/
def match_tolerance (quality : Int) : ℚ :=
  if quality = QUALITY_FAST then 2
  else if quality = QUALITY_HQ then (1 : ℚ) / 2
  else 1

/-- Resampling-filter selection of frame_to_bitmap
(thumbnail.cpp lines 417-429): FAST uses SWS_FAST_BILINEAR, HQ uses
SWS_LANCZOS, NORMAL/default uses SWS_POINT. -/
def sws_algorithm_for (quality : Int) : Int :=
  if quality = QUALITY_FAST then SWS_FAST_BILINEAR
  else if quality = QUALITY_HQ then SWS_LANCZOS
  else SWS_POINT

/-- Seek-flag selection of grabThumbnailFast (thumbnail.cpp lines 757-776):
FAST uses AVSEEK_FLAG_ANY, HQ uses AVSEEK_FLAG_BACKWARD, NORMAL/default uses
AVSEEK_FLAG_ANY for position below 5 seconds and AVSEEK_FLAG_BACKWARD
otherwise. -/
def seek_flags_for (quality : Int) (position : ℚ) : Int :=
  if quality = QUALITY_FAST then AVSEEK_FLAG_ANY
  else if quality = QUALITY_HQ then AVSEEK_FLAG_BACKWARD
  else if position < 5 then AVSEEK_FLAG_ANY else AVSEEK_FLAG_BACKWARD

/-- The guard `position < INT64_MAX / AV_TIME_BASE` of thumbnail.cpp line 753:
INT64_MAX and AV_TIME_BASE are 64-bit integers, so the division is an integer
division, whose (positive) result converts exactly to double. -/
def seek_position_bound : ℚ := ((9223372036854775807 / 1000000 : Int) : ℚ)

/-- Whole seek decision of grabThumbnailFast (thumbnail.cpp lines 753-795):
`none` when no seek is issued (position not strictly positive, or beyond the
overflow guard), otherwise the seek flags used. -/
def seek_decision (quality : Int) (position : ℚ) : Option Int :=
  if 0 < position ∧ position < seek_position_bound then
    some (seek_flags_for quality position)
  else none

/-- Round a rational to the nearest integer, ties to even — the rounding
rule of IEEE-754 arithmetic in the default mode. -/
def rne (x : ℚ) : Int :=
  let f := ⌊x⌋
  let r := x - f
  if r < 1/2 then f
  else if 1/2 < r then f + 1
  else if f % 2 = 0 then f else f + 1

/-- The binary exponent ⌊log₂ q⌋ of a positive rational, computed from the
binary logarithms of numerator and denominator with a one-step fixup. -/
def qexp (q : ℚ) : Int :=
  let e0 : Int := (Nat.log 2 q.num.natAbs : Int) - (Nat.log 2 q.den : Int)
  if (2:ℚ) ^ e0 ≤ q then e0 else e0 - 1

/-- IEEE-754 binary32 rounding (round to nearest, ties to even, 24-bit
significand), with unbounded exponent: exact on the whole normal range of
binary32, which contains every value of the size computation modelled
here (no overflow, no subnormals). A C `float` holds exactly the rational
`fl32 q` when `q` is the exact value of the operation that produced it. -/
def fl32 (q : ℚ) : ℚ :=
  if 0 < q then
    (rne (q * 2 ^ ((23:Int) - qexp q)) : ℚ) * 2 ^ (qexp q - (23:Int))
  else if q < 0 then
    -((rne (-q * 2 ^ ((23:Int) - qexp (-q))) : ℚ) * 2 ^ (qexp (-q) - (23:Int)))
  else 0

/-- The scale factor chosen by frame_to_bitmap (thumbnail.cpp lines 388-399):
for landscape-or-square frames the width is constrained to the target
dimension, for portrait frames the height; no upscaling ever happens.
`(float)target_dimension / width` converts both ints to float and performs
one single-precision division: fl32 (fl32 target / fl32 width). -/
def pick_scale (fw fh target : Int) : ℚ :=
  if fh ≤ fw then
    (if target < fw then fl32 (fl32 (target : ℚ) / fl32 (fw : ℚ)) else 1)
  else
    (if target < fh then fl32 (fl32 (target : ℚ) / fl32 (fh : ℚ)) else 1)

/-- Output size computation of frame_to_bitmap (thumbnail.cpp lines 382-407):
aspect-preserving scale-down in single-precision float
(`width * scale` promotes the int to float and multiplies with one
rounding), truncating int casts, guarded by `width > 0 && height > 0`,
followed by the floor-of-1 clamps. -/
def scaled_dims (fw fh target : Int) : Int × Int :=
  let wh :=
    if 0 < fw ∧ 0 < fh then
      (cint (fl32 (fl32 (fw : ℚ) * pick_scale fw fh target)),
       cint (fl32 (fl32 (fh : ℚ) * pick_scale fw fh target)))
    else (fw, fh)
  (clamp1 wh.1, clamp1 wh.2)

/-- A decoded AVFrame as far as the decode-and-match loop inspects it:
presentation timestamp (`none` models AV_NOPTS_VALUE), best-effort timestamp,
and the native dimensions used by frame_to_bitmap. -/
structure Frame where
  pts : Option Int
  best_effort_timestamp : Option Int
  width : Int
  height : Int
deriving DecidableEq

/-- A demuxed packet together with the behaviour of the decoder on it:
its stream index, whether avcodec_send_packet succeeds, and the list of
frames avcodec_receive_frame yields from it (in order). -/
structure Packet where
  stream_index : Int
  send_ok : Bool
  frames : List Frame
deriving DecidableEq

/-- frame_time computation of the decode loop (thumbnail.cpp lines 839-844):
pts scaled by the stream time-base when present, else the best-effort
timestamp scaled likewise, else 0.0. -/
def frame_time (time_base : ℚ) (f : Frame) : ℚ :=
  match f.pts with
  | some p => (p : ℚ) * time_base
  | none =>
    match f.best_effort_timestamp with
    | some b => (b : ℚ) * time_base
    | none => 0

/-- The inner avcodec_receive_frame drain of the decode loop
(thumbnail.cpp lines 835-892). Arguments: the conversion oracle `conv`
(whether frame_to_bitmap succeeds on a frame — its failures come from
external allocation/SwsContext construction), the frames the packet yields,
and the running frames_decoded counter. Returns the new counter, `none` when
the drain ran out of frames without accepting one or `some r` when a frame
was accepted and its conversion produced `r` (`some dims` on success, `none`
when frame_to_bitmap returned NULL), and the list of frames that were passed
to frame_to_bitmap. -/
def drain_frames (conv : Frame → Bool) (dimension quality : Int)
    (position time_base : ℚ) :
    List Frame → Nat → Nat × Option (Option (Int × Int)) × List Frame
  | [], n => (n, none, [])
  | f :: rest, n =>
    let ft := frame_time time_base f
    if 0 < position ∧ ft < position - skip_tolerance quality then
      drain_frames conv dimension quality position time_base rest (n + 1)
    else if position = 0 ∨ position - match_tolerance quality ≤ ft then
      (n + 1,
       some (if conv f then some (scaled_dims f.width f.height dimension) else none),
       [f])
    else
      drain_frames conv dimension quality position time_base rest (n + 1)

/-- The outer packet loop of grabThumbnailFast (thumbnail.cpp lines 823-902,
918-924). The packet list is the sequence of packets av_read_frame yields
before reporting end-of-stream. Returns the bitmap handed back to the caller
(`none` exactly when the call returns NULL from this phase), the final
frames_decoded counter, and the frames passed to frame_to_bitmap. A packet
is only processed while frames_decoded is below MAX_FRAMES; an accepted
frame whose conversion fails breaks the receive loop but leaves frame_found
false, so the packet loop continues. -/
def decode_loop (conv : Frame → Bool) (dimension quality : Int)
    (position time_base : ℚ) (video_idx : Int) :
    List Packet → Nat → Option (Int × Int) × Nat × List Frame
  | [], n => (none, n, [])
  | p :: rest, n =>
    if n < MAX_FRAMES then
      if p.stream_index = video_idx ∧ p.send_ok = true then
        match drain_frames conv dimension quality position time_base p.frames n with
        | (n1, some (some bmp), cs) => (some bmp, n1, cs)
        | (n1, some none, cs) =>
          let r := decode_loop conv dimension quality position time_base video_idx rest n1
          (r.1, r.2.1, cs ++ r.2.2)
        | (n1, none, cs) =>
          let r := decode_loop conv dimension quality position time_base video_idx rest n1
          (r.1, r.2.1, cs ++ r.2.2)
      else
        decode_loop conv dimension quality position time_base video_idx rest n
    else (none, n, [])

/-- Outcome of the phase of grabThumbnailFast that runs before stream
analysis (thumbnail.cpp lines 527-581). `rejected` is a NULL return before
avformat_open_input is reached, `open_failed` a NULL return because open
failed, `proceeding q` continues with the (clamped) quality. -/
inductive PreOutcome where
  | rejected
  | open_failed
  | proceeding (quality : Int)
deriving DecidableEq

/-- Quality clamp of grabThumbnailFast (thumbnail.cpp lines 547-550):
out-of-range tiers become QUALITY_NORMAL, nothing is rejected. -/
def clampQuality (quality : Int) : Int :=
  if quality < 0 ∨ 2 < quality then 1 else quality

/-- Validation prefix of grabThumbnailFast (thumbnail.cpp lines 536-581),
through the avformat_open_input attempt. `path_ok` models
GetStringUTFChars succeeding, `open_ok` the avformat_open_input result.
The Bool of the result records whether avformat_open_input was called. -/
def pre_phase (dimension : Int) (position : ℚ) (quality : Int)
    (path_ok open_ok : Bool) : PreOutcome × Bool :=
  if dimension ≤ 0 ∨ 4096 < dimension then (PreOutcome.rejected, false)
  else if position < 0 then (PreOutcome.rejected, false)
  else if path_ok = false then (PreOutcome.rejected, false)
  else if open_ok = false then (PreOutcome.open_failed, true)
  else (PreOutcome.proceeding (clampQuality quality), true)

/-- Stream-analysis bounds set by quality (thumbnail.cpp lines 588-608):
(max_analyze_duration, probesize). -/
def analyze_params (quality : Int) : Int × Int :=
  if quality = QUALITY_FAST then (500000, 2000000)
  else if quality = QUALITY_HQ then (5000000, 10000000)
  else (1000000, 5000000)

/-- The decoder-configuration fields the quality switch of grabThumbnailFast
touches (thumbnail.cpp lines 680-716). -/
structure DecoderConfig where
  thread_count : Int
  thread_type : Int
  low_delay : Bool
  fast2 : Bool
  skip_frame : Int
  skip_idct : Int
  skip_loop_filter : Int
  export_side_data : Int
  err_recognition : Int
deriving DecidableEq

/-- Decoder configuration by quality (thumbnail.cpp lines 680-716), patching
the codec-context state `base` left by avcodec_parameters_to_context. -/
def decoder_config (base : DecoderConfig) (quality : Int) : DecoderConfig :=
  if quality = QUALITY_FAST then
    { base with
      thread_count := 0, thread_type := FF_THREAD_SLICE,
      low_delay := true, fast2 := true,
      skip_frame := AVDISCARD_NONREF, skip_idct := AVDISCARD_BIDIR,
      skip_loop_filter := AVDISCARD_ALL,
      export_side_data := 0, err_recognition := 0 }
  else if quality = QUALITY_HQ then
    { base with
      thread_count := 4, thread_type := FF_THREAD_FRAME,
      skip_frame := AVDISCARD_NONE, skip_idct := AVDISCARD_NONE,
      skip_loop_filter := AVDISCARD_NONE }
  else
    { base with
      thread_count := 2, thread_type := FF_THREAD_SLICE,
      low_delay := true, fast2 := true }

/-- The three file-scoped statics of the hardware context manager
(thumbnail.cpp lines 208-211): `init_done` models g_hw_ctx_initialized,
`available` models g_hw_ctx_available, `ctx` models g_hw_device_ctx
(`none` = nullptr). -/
structure HWState where
  init_done : Bool
  available : Bool
  ctx : Option Unit
deriving DecidableEq

/-- Outcomes of the two external probe steps: av_hwdevice_find_type_by_name
returning something other than AV_HWDEVICE_TYPE_NONE, and
av_hwdevice_ctx_create succeeding. -/
structure ProbeEnv where
  find_type_ok : Bool
  create_ok : Bool
deriving DecidableEq

/-- init_hw_device_context (thumbnail.cpp lines 235-260). Returns the
function result, the new state, and the number of probe executions
(device-type lookup plus creation attempt) this call performed. -/
def init_hw_device_context (e : ProbeEnv) (s : HWState) :
    Bool × HWState × Nat :=
  if s.init_done = true then (s.available, s, 0)
  else
    if e.find_type_ok = false then
      (false, { init_done := true, available := false, ctx := s.ctx }, 1)
    else if e.create_ok = false then
      (false, { init_done := true, available := false, ctx := s.ctx }, 1)
    else
      (true, { init_done := true, available := true, ctx := some () }, 1)

/-- Hardware-context section of clearThumbnailCache (thumbnail.cpp lines
329-340): release the device handle and reset the tri-state to
uninitialized. -/
def clearThumbnailCache_hw (_ : HWState) : HWState :=
  { init_done := false, available := false, ctx := none }

/-- Operations on the hardware context manager: an acquire (a call to
init_hw_device_context, with the would-be probe outcome) or a cache clear. -/
inductive HWOp where
  | acquire (e : ProbeEnv)
  | clear
deriving DecidableEq

/-- Run a sequence of hardware-context operations, counting the total
number of probe executions. -/
def run_hw : HWState → List HWOp → HWState × Nat
  | s, [] => (s, 0)
  | s, HWOp.acquire e :: rest =>
    let a := init_hw_device_context e s
    let r := run_hw a.2.1 rest
    (r.1, a.2.2 + r.2)
  | s, HWOp.clear :: rest => run_hw (clearThumbnailCache_hw s) rest

/-- A CodecCacheEntry (thumbnail.cpp lines 198-202); the decoder descriptor
is a raw pointer, so it is modelled as `Option Nat` with `none` = NULL. -/
structure CodecCacheEntry where
  codec_id : Nat
  codec : Option Nat
  last_used : Nat
deriving DecidableEq

/-- The last_used refresh a cache hit performs (thumbnail.cpp line 219). -/
def touch_entry (id : Nat) (now : Nat) (e : CodecCacheEntry) : CodecCacheEntry :=
  if e.codec_id = id then { e with last_used := now } else e

/-- get_cached_codec (thumbnail.cpp lines 214-232): on a hit refresh
last_used and return the cached descriptor without consulting the registry;
on a miss consult the registry (`find_decoder`, modelling
avcodec_find_decoder) and insert only when it returned a decoder. Returns
the descriptor, the new cache, and whether the registry lookup ran. -/
def get_cached_codec (find_decoder : Nat → Option Nat) (now : Nat)
    (cache : List CodecCacheEntry) (id : Nat) :
    Option Nat × List CodecCacheEntry × Bool :=
  match cache.find? (fun e => e.codec_id == id) with
  | some e => (e.codec, cache.map (touch_entry id now), false)
  | none =>
    match find_decoder id with
    | some c => (some c, cache ++ [⟨id, some c, now⟩], true)
    | none => (none, cache, true)

/-! Concrete instances used by the scenario theorems and counterexamples. -/

/-- Frame with presentation timestamp 0.0 s of the C1 synthetic stream. -/
def c1_f0 : Frame := ⟨some 0, none, 100, 50⟩

/-- Frame with presentation timestamp 1.0 s of the C1 synthetic stream. -/
def c1_f1 : Frame := ⟨some 1, none, 101, 51⟩

/-- Frame with presentation timestamp 2.0 s of the C1 synthetic stream. -/
def c1_f2 : Frame := ⟨some 2, none, 102, 52⟩

/-- Frame with presentation timestamp 5.0 s of the C1 synthetic stream. -/
def c1_f5 : Frame := ⟨some 5, none, 160, 90⟩

/-- Frame with presentation timestamp 9.0 s of the C1 synthetic stream. -/
def c1_f9 : Frame := ⟨some 9, none, 104, 54⟩

/-- The C1 synthetic stream: one video packet per frame, timestamps
[0.0, 1.0, 2.0, 5.0, 9.0] seconds under time-base 1. -/
def c1_packets : List Packet :=
  [⟨0, true, [c1_f0]⟩, ⟨0, true, [c1_f1]⟩, ⟨0, true, [c1_f2]⟩,
   ⟨0, true, [c1_f5]⟩, ⟨0, true, [c1_f9]⟩]

/-- A frame with no timestamp information at all (both pts and the
best-effort estimate are AV_NOPTS_VALUE), so its frame_time stays 0.0. -/
def c2_bad_frame : Frame := ⟨none, none, 640, 480⟩

/-- A pathological stream for C2: a single video packet from which the
decoder drains 301 frames, none of which ever satisfies the accept window
for a target of 10.0 s. -/
def c2_packets : List Packet := [⟨0, true, List.replicate 301 c2_bad_frame⟩]

/-- First acceptable frame of the C4 scenario (presentation time 5.0 s). -/
def c4_fa : Frame := ⟨some 5, none, 160, 90⟩

/-- Second acceptable frame of the C4 scenario (presentation time 6.0 s). -/
def c4_fb : Frame := ⟨some 6, none, 200, 100⟩

/-- Conversion oracle of the C4 scenario: frame_to_bitmap fails (returns
NULL, e.g. because sws_getContext or the array allocation failed) on
`c4_fa` and succeeds on `c4_fb`. -/
def c4_conv : Frame → Bool := fun f => decide (f = c4_fb)

/-- The C4 stream: the two acceptable frames arrive in separate packets. -/
def c4_packets : List Packet := [⟨0, true, [c4_fa]⟩, ⟨0, true, [c4_fb]⟩]

/-! Helper lemmas. -/

/-- The C int cast agrees with the identity on values that are already
integers. -/
theorem cint_intCast (n : Int) : cint ((n : ℚ)) = n := by
  unfold cint
  split
  · rw [← Int.cast_neg, Int.floor_intCast, neg_neg]
  · exact Int.floor_intCast n

/-- On nonnegative rationals the C int cast is the floor. -/
theorem cint_nonneg (q : ℚ) (h : 0 ≤ q) : cint q = ⌊q⌋ := by
  unfold cint
  rw [if_neg (not_lt.mpr h)]

/-- The floor-of-1 clamp always yields at least 1. -/
theorem one_le_clamp1 (x : Int) : 1 ≤ clamp1 x := by
  unfold clamp1
  split <;> omega

/-- The floor-of-1 clamp respects an upper bound of at least 1. -/
theorem clamp1_le (x t : Int) (hx : x ≤ t) (ht : 1 ≤ t) : clamp1 x ≤ t := by
  unfold clamp1
  split <;> omega

/-- The floor-of-1 clamp is the max with 1. -/
theorem clamp1_eq_max (x : Int) : clamp1 x = max 1 x := by
  unfold clamp1
  split
  · exact (max_eq_left (by omega)).symm
  · exact (max_eq_right (by omega)).symm

/-- The clamp is the identity on values that are already at least 1. -/
theorem clamp1_of_one_le (x : Int) (h : 1 ≤ x) : clamp1 x = x := by
  unfold clamp1
  rw [if_neg (by omega)]

/-- Evaluation rule for round-to-nearest-even: a value within [m, m + 1/2)
rounds to m. -/
theorem rne_eq_lo (x : ℚ) (m : Int) (h1 : (m:ℚ) ≤ x) (h2 : x < (m:ℚ) + 1/2) :
    rne x = m := by
  have hf : ⌊x⌋ = m := Int.floor_eq_iff.mpr ⟨h1, by linarith⟩
  unfold rne
  rw [hf, if_pos (by linarith)]

/-- Evaluation rule for round-to-nearest-even: a value within (m - 1/2, m]
rounds to m. -/
theorem rne_eq_hi (x : ℚ) (m : Int) (h1 : (m:ℚ) - 1/2 < x) (h2 : x ≤ (m:ℚ)) :
    rne x = m := by
  rcases eq_or_lt_of_le h2 with heq | hlt
  · exact rne_eq_lo x m (le_of_eq heq.symm) (by linarith)
  · have hf : ⌊x⌋ = m - 1 := Int.floor_eq_iff.mpr ⟨by push_cast; linarith, by push_cast; linarith⟩
    unfold rne
    rw [hf, if_neg (by push_cast; linarith), if_pos (by push_cast; linarith)]
    omega

/-- Evaluation rule for round-to-nearest-even at an exact tie: m + 1/2 with m
even rounds to m. -/
theorem rne_eq_tie (x : ℚ) (m : Int) (h : x = (m:ℚ) + 1/2) (he : m % 2 = 0) :
    rne x = m := by
  have hf : ⌊x⌋ = m := Int.floor_eq_iff.mpr ⟨by linarith, by linarith⟩
  unfold rne
  rw [hf, if_neg (by linarith), if_neg (by linarith), if_pos he]

/-- Round-to-nearest-even is the identity on integers. -/
theorem rne_intCast (k : Int) : rne ((k:ℚ)) = k :=
  rne_eq_lo _ k (le_refl _) (by linarith)

/-- Round-to-nearest-even moves a value by at most one half. -/
theorem rne_bounds (x : ℚ) : x - 1/2 ≤ (rne x : ℚ) ∧ (rne x : ℚ) ≤ x + 1/2 := by
  have h1 := Int.floor_le x
  have h2 := Int.lt_floor_add_one x
  rw [show rne x = (if x - ⌊x⌋ < 1/2 then ⌊x⌋
      else if 1/2 < x - ⌊x⌋ then ⌊x⌋ + 1
      else if ⌊x⌋ % 2 = 0 then ⌊x⌋ else ⌊x⌋ + 1) from rfl]
  split_ifs <;> push_cast at * <;> constructor <;> linarith

/-- The computed binary exponent brackets a positive rational:
2 ^ qexp q ≤ q < 2 ^ (qexp q + 1). -/
theorem qexp_spec (q : ℚ) (hq : 0 < q) :
    (2:ℚ) ^ qexp q ≤ q ∧ q < (2:ℚ) ^ (qexp q + 1) := by
  have hnum : 0 < q.num := Rat.num_pos.mpr hq
  have hn0 : q.num.natAbs ≠ 0 := by omega
  have hd0 : q.den ≠ 0 := q.den_nz
  have hdQ : (0:ℚ) < (q.den:ℚ) := by
    have := Nat.pos_of_ne_zero hd0
    exact_mod_cast this
  have hqnd : q = ((q.num.natAbs : ℕ) : ℚ) / ((q.den : ℕ) : ℚ) := by
    rw [show (((q.num.natAbs : ℕ) : ℚ)) = ((q.num : ℤ) : ℚ) by
      rw [Int.cast_natAbs, abs_of_nonneg (le_of_lt hnum)]]
    exact (Rat.num_div_den q).symm
  set a : Int := ((Nat.log 2 q.num.natAbs : ℕ) : Int) with ha
  set b : Int := ((Nat.log 2 q.den : ℕ) : Int) with hb
  have hna : ((2:ℚ)) ^ a ≤ ((q.num.natAbs : ℕ) : ℚ) := by
    rw [ha, zpow_natCast]
    exact_mod_cast Nat.pow_log_le_self 2 hn0
  have hna2 : ((q.num.natAbs : ℕ) : ℚ) < (2:ℚ) ^ (a + 1) := by
    rw [ha, show ((Nat.log 2 q.num.natAbs : ℕ) : Int) + 1 = ((Nat.log 2 q.num.natAbs + 1 : ℕ) : Int) by push_cast; ring,
      zpow_natCast]
    exact_mod_cast Nat.lt_pow_succ_log_self one_lt_two q.num.natAbs
  have hdb : ((2:ℚ)) ^ b ≤ ((q.den : ℕ) : ℚ) := by
    rw [hb, zpow_natCast]
    exact_mod_cast Nat.pow_log_le_self 2 hd0
  have hdb2 : ((q.den : ℕ) : ℚ) < (2:ℚ) ^ (b + 1) := by
    rw [hb, show ((Nat.log 2 q.den : ℕ) : Int) + 1 = ((Nat.log 2 q.den + 1 : ℕ) : Int) by push_cast; ring,
      zpow_natCast]
    exact_mod_cast Nat.lt_pow_succ_log_self one_lt_two q.den
  have hup : q < (2:ℚ) ^ (a - b + 1) := by
    rw [hqnd, div_lt_iff₀ hdQ]
    calc ((q.num.natAbs : ℕ) : ℚ) < (2:ℚ) ^ (a + 1) := hna2
      _ = (2:ℚ) ^ (a - b + 1) * (2:ℚ) ^ b := by
          rw [← zpow_add₀ (two_ne_zero)]
          ring_nf
      _ ≤ (2:ℚ) ^ (a - b + 1) * ((q.den : ℕ) : ℚ) :=
          mul_le_mul_of_nonneg_left hdb (le_of_lt (zpow_pos (by norm_num) _))
  have hlo : (2:ℚ) ^ (a - b - 1) ≤ q := by
    rw [hqnd, le_div_iff₀ hdQ]
    calc (2:ℚ) ^ (a - b - 1) * ((q.den : ℕ) : ℚ)
        ≤ (2:ℚ) ^ (a - b - 1) * (2:ℚ) ^ (b + 1) :=
          mul_le_mul_of_nonneg_left (le_of_lt hdb2) (le_of_lt (zpow_pos (by norm_num) _))
      _ = (2:ℚ) ^ a := by
          rw [← zpow_add₀ (two_ne_zero)]
          ring_nf
      _ ≤ ((q.num.natAbs : ℕ) : ℚ) := hna
  have hqexp : qexp q = if (2:ℚ) ^ (a - b) ≤ q then a - b else a - b - 1 := rfl
  rw [hqexp]
  split_ifs with h
  · exact ⟨h, hup⟩
  · constructor
    · exact hlo
    · rw [sub_add_cancel]
      exact not_le.mp h

/-- The binary exponent is determined by any valid bracketing. -/
theorem qexp_unique (q : ℚ) (e : Int) (hq : 0 < q)
    (h1 : (2:ℚ)^e ≤ q) (h2 : q < (2:ℚ)^(e+1)) : qexp q = e := by
  obtain ⟨l, u⟩ := qexp_spec q hq
  by_contra hne
  rcases lt_or_gt_of_ne hne with hlt | hgt
  · have : (2:ℚ)^(qexp q + 1) ≤ (2:ℚ)^e := zpow_le_zpow_right₀ one_le_two (by omega)
    linarith
  · have : (2:ℚ)^(e+1) ≤ (2:ℚ)^(qexp q) := zpow_le_zpow_right₀ one_le_two (by omega)
    linarith

/-- Unfolding of fl32 on positive inputs. -/
theorem fl32_pos_def (q : ℚ) (hq : 0 < q) :
    fl32 q = (rne (q * 2 ^ ((23:Int) - qexp q)) : ℚ) * 2 ^ (qexp q - (23:Int)) := by
  unfold fl32
  rw [if_pos hq]

/-- The fundamental relative-error bound of binary32 rounding on the normal
range: fl32 q lies within a factor (1 ± 2⁻²⁴) of q. -/
theorem fl32_bounds (q : ℚ) (hq : 0 < q) :
    q * (1 - (2:ℚ)^(-24:Int)) ≤ fl32 q ∧ fl32 q ≤ q * (1 + (2:ℚ)^(-24:Int)) := by
  obtain ⟨hb1, hb2⟩ := qexp_spec q hq
  rw [fl32_pos_def q hq]
  obtain ⟨hr1, hr2⟩ := rne_bounds (q * 2 ^ ((23:Int) - qexp q))
  have h2p : (0:ℚ) < (2:ℚ)^(qexp q - (23:Int)) := zpow_pos (by norm_num) _
  have hxq : (q * (2:ℚ) ^ ((23:Int) - qexp q)) * (2:ℚ) ^ (qexp q - (23:Int)) = q := by
    rw [mul_assoc, ← zpow_add₀ (two_ne_zero),
      show (23:Int) - qexp q + (qexp q - 23) = 0 by ring, zpow_zero, mul_one]
  have hhalf : (2:ℚ)^(qexp q - (23:Int)) * (1/2) ≤ q * (2:ℚ)^(-24:Int) := by
    have he : (2:ℚ)^(qexp q - (23:Int)) * (1/2) = (2:ℚ)^(qexp q) * (2:ℚ)^(-24:Int) := by
      rw [show (1:ℚ)/2 = (2:ℚ)^(-1:Int) by norm_num, ← zpow_add₀ (two_ne_zero),
        ← zpow_add₀ (two_ne_zero)]
      ring_nf
    rw [he]
    exact mul_le_mul_of_nonneg_right hb1 (le_of_lt (zpow_pos (by norm_num) _))
  have hv : (2:ℚ)^(-24:Int) = 1/16777216 := by norm_num
  rw [hv] at hhalf
  constructor
  · have hml := mul_le_mul_of_nonneg_right hr1 (le_of_lt h2p)
    have hexp : (q * (2:ℚ) ^ ((23:Int) - qexp q) - 1/2) * (2:ℚ)^(qexp q - (23:Int))
        = q - (2:ℚ)^(qexp q - (23:Int)) * (1/2) := by
      rw [sub_mul, hxq]
      ring
    rw [hexp] at hml
    rw [hv]
    linarith [hhalf, hml]
  · have hml := mul_le_mul_of_nonneg_right hr2 (le_of_lt h2p)
    have hexp : (q * (2:ℚ) ^ ((23:Int) - qexp q) + 1/2) * (2:ℚ)^(qexp q - (23:Int))
        = q + (2:ℚ)^(qexp q - (23:Int)) * (1/2) := by
      rw [add_mul, hxq]
      ring
    rw [hexp] at hml
    rw [hv]
    linarith [hhalf, hml]

/-- binary32 rounding is exact on integers up to 2²³ (every such integer is
representable in a 24-bit significand). -/
theorem fl32_intCast (n : Int) (h1 : 0 < n) (h2 : n ≤ 8388608) :
    fl32 ((n:ℚ)) = (n:ℚ) := by
  have hq : (0:ℚ) < (n:ℚ) := by exact_mod_cast h1
  obtain ⟨hb1, hb2⟩ := qexp_spec (n:ℚ) hq
  have he12 : qexp ((n:ℚ)) ≤ 23 := by
    by_contra h
    push_neg at h
    have hmono : (2:ℚ)^(24:Int) ≤ (2:ℚ)^(qexp ((n:ℚ))) := zpow_le_zpow_right₀ one_le_two (by omega)
    have hn8 : ((n:ℚ)) ≤ 8388608 := by exact_mod_cast h2
    have h24 : (2:ℚ)^(24:Int) = 16777216 := by norm_num
    linarith
  rw [fl32_pos_def _ hq]
  have hnn : (0:Int) ≤ 23 - qexp ((n:ℚ)) := by omega
  have hkey : ((n:ℚ)) * (2:ℚ) ^ ((23:Int) - qexp ((n:ℚ)))
      = (((n * 2^(23 - qexp ((n:ℚ))).toNat : Int)) : ℚ) := by
    push_cast
    rw [← zpow_natCast (2:ℚ) (23 - qexp ((n:ℚ))).toNat, Int.toNat_of_nonneg hnn]
  rw [hkey, rne_intCast]
  push_cast
  rw [mul_assoc, ← zpow_natCast (2:ℚ) (23 - qexp ((n:ℚ))).toNat, Int.toNat_of_nonneg hnn,
    ← zpow_add₀ (two_ne_zero), show (23:Int) - qexp ((n:ℚ)) + (qexp ((n:ℚ)) - 23) = 0 by ring,
    zpow_zero, mul_one]

/-- Evaluation rule for fl32 at a concrete positive rational: supply the
binary exponent bracketing and the rounded significand. -/
theorem fl32_eval (q : ℚ) (e m : Int) (hq : 0 < q)
    (hb1 : (2:ℚ)^e ≤ q) (hb2 : q < (2:ℚ)^(e+1))
    (hm : rne (q * (2:ℚ)^((23:Int) - e)) = m) :
    fl32 q = (m:ℚ) * (2:ℚ)^(e - (23:Int)) := by
  rw [fl32_pos_def q hq, qexp_unique q e hq hb1 hb2, hm]

/-- The floor-of-1 clamp never decreases a value. -/
theorem le_clamp1 (x : Int) : x ≤ clamp1 x := by
  unfold clamp1
  split <;> omega

/-- The truncating int cast of a nonnegative value below t + 1 is at most t. -/
theorem cint_le_of_lt (x : ℚ) (t : Int) (h0 : 0 ≤ x) (h : x < (t:ℚ) + 1) :
    cint x ≤ t := by
  rw [cint_nonneg x h0]
  have : ⌊x⌋ < t + 1 := Int.floor_lt.mpr (by push_cast; linarith)
  omega

/-- The truncating int cast of a nonnegative value is at least any integer
below the value. -/
theorem le_cint (x : ℚ) (z : Int) (h0 : 0 ≤ x) (h : (z:ℚ) ≤ x) : z ≤ cint x := by
  rw [cint_nonneg x h0]
  exact Int.le_floor.mpr h

/-- Evaluation scheme for scaled_dims on a concrete landscape input: supply
the three fl32 results (scale, width product, height product). -/
theorem scaled_dims_eval (A B T : Int) (s p1 p2 : ℚ)
    (h1 : 0 < A) (h2 : 0 < B) (h3 : B ≤ A) (h4 : T < A)
    (hs : fl32 (fl32 (T:ℚ) / fl32 (A:ℚ)) = s)
    (hp1 : fl32 (fl32 (A:ℚ) * s) = p1)
    (hp2 : fl32 (fl32 (B:ℚ) * s) = p2) :
    scaled_dims A B T = (clamp1 (cint p1), clamp1 (cint p2)) := by
  have hps : pick_scale A B T = s := by
    unfold pick_scale
    rw [if_pos h3, if_pos h4, hs]
  simp only [scaled_dims]
  rw [if_pos ⟨h1, h2⟩, hps, hp1, hp2]


/-- Bit-exact evaluation of the float32 size computation on a 160x90
source at requested dimension 64: the program produces (64, 36). -/
theorem scaled_dims_160_90_64 : scaled_dims 160 90 64 = (64, 36) := by
  have hT : fl32 ((64 : Int) : ℚ) = ((64 : Int) : ℚ) := fl32_intCast 64 (by norm_num) (by norm_num)
  have hA : fl32 ((160 : Int) : ℚ) = ((160 : Int) : ℚ) := fl32_intCast 160 (by norm_num) (by norm_num)
  have hB : fl32 ((90 : Int) : ℚ) = ((90 : Int) : ℚ) := fl32_intCast 90 (by norm_num) (by norm_num)
  have hs : fl32 (fl32 ((64 : Int) : ℚ) / fl32 ((160 : Int) : ℚ))
      = (13421773 : ℚ) * (2:ℚ)^(-25 : Int) := by
    rw [hT, hA, show (((64 : Int) : ℚ) / ((160 : Int) : ℚ)) = (2/5 : ℚ) by norm_num]
    have hm : rne ((2/5 : ℚ) * (2:ℚ)^((23:Int) - (-2))) = 13421773 := by
      rw [show (23:Int) - (-2) = 25 by norm_num]
      exact rne_eq_hi _ 13421773 (by norm_num) (by norm_num)
    rw [fl32_eval _ (-2) 13421773 (by norm_num) (by norm_num) (by norm_num) hm]
    norm_num
  have hp1 : fl32 (fl32 ((160 : Int) : ℚ) * ((13421773 : ℚ) * (2:ℚ)^(-25 : Int)))
      = (64 : ℚ) := by
    rw [hA, show (((160 : Int) : ℚ) * ((13421773 : ℚ) * (2:ℚ)^(-25 : Int))) = (67108865/1048576 : ℚ) by norm_num]
    have hm : rne ((67108865/1048576 : ℚ) * (2:ℚ)^((23:Int) - (6))) = 8388608 := by
      rw [show (23:Int) - (6) = 17 by norm_num]
      exact rne_eq_lo _ 8388608 (by norm_num) (by norm_num)
    rw [fl32_eval _ (6) 8388608 (by norm_num) (by norm_num) (by norm_num) hm]
    norm_num
  have hp2 : fl32 (fl32 ((90 : Int) : ℚ) * ((13421773 : ℚ) * (2:ℚ)^(-25 : Int)))
      = (36 : ℚ) := by
    rw [hB, show (((90 : Int) : ℚ) * ((13421773 : ℚ) * (2:ℚ)^(-25 : Int))) = (603979785/16777216 : ℚ) by norm_num]
    have hm : rne ((603979785/16777216 : ℚ) * (2:ℚ)^((23:Int) - (5))) = 9437184 := by
      rw [show (23:Int) - (5) = 18 by norm_num]
      exact rne_eq_lo _ 9437184 (by norm_num) (by norm_num)
    rw [fl32_eval _ (5) 9437184 (by norm_num) (by norm_num) (by norm_num) hm]
    norm_num
  rw [scaled_dims_eval 160 90 64 _ _ _ (by norm_num) (by norm_num) (by norm_num)
    (by norm_num) hs hp1 hp2]
  norm_num [cint, clamp1]

/-- Bit-exact evaluation of the float32 size computation on a 200x100
source at requested dimension 64: the program produces (64, 32). -/
theorem scaled_dims_200_100_64 : scaled_dims 200 100 64 = (64, 32) := by
  have hT : fl32 ((64 : Int) : ℚ) = ((64 : Int) : ℚ) := fl32_intCast 64 (by norm_num) (by norm_num)
  have hA : fl32 ((200 : Int) : ℚ) = ((200 : Int) : ℚ) := fl32_intCast 200 (by norm_num) (by norm_num)
  have hB : fl32 ((100 : Int) : ℚ) = ((100 : Int) : ℚ) := fl32_intCast 100 (by norm_num) (by norm_num)
  have hs : fl32 (fl32 ((64 : Int) : ℚ) / fl32 ((200 : Int) : ℚ))
      = (10737418 : ℚ) * (2:ℚ)^(-25 : Int) := by
    rw [hT, hA, show (((64 : Int) : ℚ) / ((200 : Int) : ℚ)) = (8/25 : ℚ) by norm_num]
    have hm : rne ((8/25 : ℚ) * (2:ℚ)^((23:Int) - (-2))) = 10737418 := by
      rw [show (23:Int) - (-2) = 25 by norm_num]
      exact rne_eq_lo _ 10737418 (by norm_num) (by norm_num)
    rw [fl32_eval _ (-2) 10737418 (by norm_num) (by norm_num) (by norm_num) hm]
    norm_num
  have hp1 : fl32 (fl32 ((200 : Int) : ℚ) * ((10737418 : ℚ) * (2:ℚ)^(-25 : Int)))
      = (64 : ℚ) := by
    rw [hA, show (((200 : Int) : ℚ) * ((10737418 : ℚ) * (2:ℚ)^(-25 : Int))) = (134217725/2097152 : ℚ) by norm_num]
    have hm : rne ((134217725/2097152 : ℚ) * (2:ℚ)^((23:Int) - (5))) = 16777216 := by
      rw [show (23:Int) - (5) = 18 by norm_num]
      exact rne_eq_hi _ 16777216 (by norm_num) (by norm_num)
    rw [fl32_eval _ (5) 16777216 (by norm_num) (by norm_num) (by norm_num) hm]
    norm_num
  have hp2 : fl32 (fl32 ((100 : Int) : ℚ) * ((10737418 : ℚ) * (2:ℚ)^(-25 : Int)))
      = (32 : ℚ) := by
    rw [hB, show (((100 : Int) : ℚ) * ((10737418 : ℚ) * (2:ℚ)^(-25 : Int))) = (134217725/4194304 : ℚ) by norm_num]
    have hm : rne ((134217725/4194304 : ℚ) * (2:ℚ)^((23:Int) - (4))) = 16777216 := by
      rw [show (23:Int) - (4) = 19 by norm_num]
      exact rne_eq_hi _ 16777216 (by norm_num) (by norm_num)
    rw [fl32_eval _ (4) 16777216 (by norm_num) (by norm_num) (by norm_num) hm]
    norm_num
  rw [scaled_dims_eval 200 100 64 _ _ _ (by norm_num) (by norm_num) (by norm_num)
    (by norm_num) hs hp1 hp2]
  norm_num [cint, clamp1]

/-- Bit-exact evaluation of the float32 size computation on a 23x10
source at requested dimension 7: the program produces (6, 3). -/
theorem scaled_dims_23_10_7 : scaled_dims 23 10 7 = (6, 3) := by
  have hT : fl32 ((7 : Int) : ℚ) = ((7 : Int) : ℚ) := fl32_intCast 7 (by norm_num) (by norm_num)
  have hA : fl32 ((23 : Int) : ℚ) = ((23 : Int) : ℚ) := fl32_intCast 23 (by norm_num) (by norm_num)
  have hB : fl32 ((10 : Int) : ℚ) = ((10 : Int) : ℚ) := fl32_intCast 10 (by norm_num) (by norm_num)
  have hs : fl32 (fl32 ((7 : Int) : ℚ) / fl32 ((23 : Int) : ℚ))
      = (10212218 : ℚ) * (2:ℚ)^(-25 : Int) := by
    rw [hT, hA, show (((7 : Int) : ℚ) / ((23 : Int) : ℚ)) = (7/23 : ℚ) by norm_num]
    have hm : rne ((7/23 : ℚ) * (2:ℚ)^((23:Int) - (-2))) = 10212218 := by
      rw [show (23:Int) - (-2) = 25 by norm_num]
      exact rne_eq_lo _ 10212218 (by norm_num) (by norm_num)
    rw [fl32_eval _ (-2) 10212218 (by norm_num) (by norm_num) (by norm_num) hm]
    norm_num
  have hp1 : fl32 (fl32 ((23 : Int) : ℚ) * ((10212218 : ℚ) * (2:ℚ)^(-25 : Int)))
      = (14680063/2097152 : ℚ) := by
    rw [hA, show (((23 : Int) : ℚ) * ((10212218 : ℚ) * (2:ℚ)^(-25 : Int))) = (117440507/16777216 : ℚ) by norm_num]
    have hm : rne ((117440507/16777216 : ℚ) * (2:ℚ)^((23:Int) - (2))) = 14680063 := by
      rw [show (23:Int) - (2) = 21 by norm_num]
      exact rne_eq_lo _ 14680063 (by norm_num) (by norm_num)
    rw [fl32_eval _ (2) 14680063 (by norm_num) (by norm_num) (by norm_num) hm]
    norm_num
  have hp2 : fl32 (fl32 ((10 : Int) : ℚ) * ((10212218 : ℚ) * (2:ℚ)^(-25 : Int)))
      = (1595659/524288 : ℚ) := by
    rw [hB, show (((10 : Int) : ℚ) * ((10212218 : ℚ) * (2:ℚ)^(-25 : Int))) = (25530545/8388608 : ℚ) by norm_num]
    have hm : rne ((25530545/8388608 : ℚ) * (2:ℚ)^((23:Int) - (1))) = 12765272 := by
      rw [show (23:Int) - (1) = 22 by norm_num]
      exact rne_eq_tie _ 12765272 (by norm_num) (by norm_num)
    rw [fl32_eval _ (1) 12765272 (by norm_num) (by norm_num) (by norm_num) hm]
    norm_num
  rw [scaled_dims_eval 23 10 7 _ _ _ (by norm_num) (by norm_num) (by norm_num)
    (by norm_num) hs hp1 hp2]
  norm_num [cint, clamp1]

/-- Bit-exact evaluation of the float32 size computation on a 9996x6665
source at requested dimension 3331: the program produces (3331, 2221). -/
theorem scaled_dims_9996_6665_3331 : scaled_dims 9996 6665 3331 = (3331, 2221) := by
  have hT : fl32 ((3331 : Int) : ℚ) = ((3331 : Int) : ℚ) := fl32_intCast 3331 (by norm_num) (by norm_num)
  have hA : fl32 ((9996 : Int) : ℚ) = ((9996 : Int) : ℚ) := fl32_intCast 9996 (by norm_num) (by norm_num)
  have hB : fl32 ((6665 : Int) : ℚ) = ((6665 : Int) : ℚ) := fl32_intCast 6665 (by norm_num) (by norm_num)
  have hs : fl32 (fl32 ((3331 : Int) : ℚ) / fl32 ((9996 : Int) : ℚ))
      = (11181454 : ℚ) * (2:ℚ)^(-25 : Int) := by
    rw [hT, hA, show (((3331 : Int) : ℚ) / ((9996 : Int) : ℚ)) = (3331/9996 : ℚ) by norm_num]
    have hm : rne ((3331/9996 : ℚ) * (2:ℚ)^((23:Int) - (-2))) = 11181454 := by
      rw [show (23:Int) - (-2) = 25 by norm_num]
      exact rne_eq_hi _ 11181454 (by norm_num) (by norm_num)
    rw [fl32_eval _ (-2) 11181454 (by norm_num) (by norm_num) (by norm_num) hm]
    norm_num
  have hp1 : fl32 (fl32 ((9996 : Int) : ℚ) * ((11181454 : ℚ) * (2:ℚ)^(-25 : Int)))
      = (3331 : ℚ) := by
    rw [hA, show (((9996 : Int) : ℚ) * ((11181454 : ℚ) * (2:ℚ)^(-25 : Int))) = (13971226773/4194304 : ℚ) by norm_num]
    have hm : rne ((13971226773/4194304 : ℚ) * (2:ℚ)^((23:Int) - (11))) = 13643776 := by
      rw [show (23:Int) - (11) = 12 by norm_num]
      exact rne_eq_lo _ 13643776 (by norm_num) (by norm_num)
    rw [fl32_eval _ (11) 13643776 (by norm_num) (by norm_num) (by norm_num) hm]
    norm_num
  have hp2 : fl32 (fl32 ((6665 : Int) : ℚ) * ((11181454 : ℚ) * (2:ℚ)^(-25 : Int)))
      = (2221 : ℚ) := by
    rw [hB, show (((6665 : Int) : ℚ) * ((11181454 : ℚ) * (2:ℚ)^(-25 : Int))) = (37262195455/16777216 : ℚ) by norm_num]
    have hm : rne ((37262195455/16777216 : ℚ) * (2:ℚ)^((23:Int) - (11))) = 9097216 := by
      rw [show (23:Int) - (11) = 12 by norm_num]
      exact rne_eq_hi _ 9097216 (by norm_num) (by norm_num)
    rw [fl32_eval _ (11) 9097216 (by norm_num) (by norm_num) (by norm_num) hm]
    norm_num
  rw [scaled_dims_eval 9996 6665 3331 _ _ _ (by norm_num) (by norm_num) (by norm_num)
    (by norm_num) hs hp1 hp2]
  norm_num [cint, clamp1]

/-! Claim theorems. -/

/-- C3 counterexample: the claim maps the point-sampling filter (SWS_POINT)
to the Fast tier, but the code selects SWS_FAST_BILINEAR for the Fast tier;
the point-sampling filter is in fact what the Normal tier gets. -/
theorem claim_C3_cex :
    sws_algorithm_for QUALITY_FAST = SWS_FAST_BILINEAR ∧
    SWS_FAST_BILINEAR ≠ SWS_POINT ∧
    sws_algorithm_for QUALITY_NORMAL = SWS_POINT := by
  decide

/-- C3 (amended): the scale/convert engine selects the filter by tier as
the code does: SWS_FAST_BILINEAR for Fast, SWS_POINT (point sampling) for
Normal, SWS_LANCZOS (the highest-quality choice) for HighQuality. -/
theorem claim_C3_filter_mapping :
    sws_algorithm_for QUALITY_FAST = SWS_FAST_BILINEAR ∧
    sws_algorithm_for QUALITY_NORMAL = SWS_POINT ∧
    sws_algorithm_for QUALITY_HQ = SWS_LANCZOS := by
  decide

/-- C5: a request with dimension outside [1, 4096] or a negative target
timestamp returns the NULL failure result with the open-attempted flag
still false, i.e. strictly before avformat_open_input is called, whatever
the path and open outcomes would have been. -/
theorem claim_C5_reject_before_open (dimension : Int) (position : ℚ)
    (quality : Int) (path_ok open_ok : Bool)
    (h : dimension ≤ 0 ∨ 4096 < dimension ∨ position < 0) :
    pre_phase dimension position quality path_ok open_ok
      = (PreOutcome.rejected, false) := by
  unfold pre_phase
  rcases h with h | h | h
  · rw [if_pos (Or.inl h)]
  · rw [if_pos (Or.inr h)]
  · by_cases hd : dimension ≤ 0 ∨ 4096 < dimension
    · rw [if_pos hd]
    · rw [if_neg hd, if_pos h]

/-- C5 witness: the theorem applied to dimension 0 (and to dimension 5000
and to a negative timestamp) at concrete arguments. -/
theorem claim_C5_witness :
    pre_phase 0 0 1 true true = (PreOutcome.rejected, false) ∧
    pre_phase 5000 0 1 true true = (PreOutcome.rejected, false) ∧
    pre_phase 100 (-1) 1 true true = (PreOutcome.rejected, false) :=
  ⟨claim_C5_reject_before_open 0 0 1 true true (Or.inl (by decide)),
   claim_C5_reject_before_open 5000 0 1 true true (Or.inr (Or.inl (by decide))),
   claim_C5_reject_before_open 100 (-1) 1 true true
     (Or.inr (Or.inr (by norm_num)))⟩

/-- C6: among calls that seek (t strictly positive and below the overflow
guard), the seek flag is AVSEEK_FLAG_BACKWARD exactly for HighQuality and
for Normal with t at least 5 seconds, and AVSEEK_FLAG_ANY for Fast and for
Normal with t under 5 seconds; for t = 0 no seek is issued at all. -/
theorem claim_C6_seek_strategy (q : Int) (p : ℚ)
    (hq : q = QUALITY_FAST ∨ q = QUALITY_NORMAL ∨ q = QUALITY_HQ) :
    (p = 0 → seek_decision q p = none) ∧
    (0 < p → p < seek_position_bound →
      seek_decision q p = some (seek_flags_for q p) ∧
      ((q = QUALITY_HQ ∨ (q = QUALITY_NORMAL ∧ 5 ≤ p)) →
        seek_flags_for q p = AVSEEK_FLAG_BACKWARD) ∧
      ((q = QUALITY_FAST ∨ (q = QUALITY_NORMAL ∧ p < 5)) →
        seek_flags_for q p = AVSEEK_FLAG_ANY)) := by
  constructor
  · intro hp
    subst hp
    unfold seek_decision
    rw [if_neg (by simp)]
  · intro h1 h2
    refine ⟨by unfold seek_decision; rw [if_pos ⟨h1, h2⟩], ?_, ?_⟩
    · rintro (hcase | ⟨hcase, h5⟩)
      · subst hcase
        unfold seek_flags_for
        rw [if_neg (by decide), if_pos rfl]
      · subst hcase
        unfold seek_flags_for
        rw [if_neg (by decide), if_neg (by decide), if_neg (not_lt.mpr h5)]
    · rintro (hcase | ⟨hcase, h5⟩)
      · subst hcase
        unfold seek_flags_for
        rw [if_pos rfl]
      · subst hcase
        unfold seek_flags_for
        rw [if_neg (by decide), if_neg (by decide), if_pos h5]

/-- C6 witness: concrete instances of the four flag cases and of the
no-seek case at t = 0. -/
theorem claim_C6_witness :
    seek_decision QUALITY_NORMAL 0 = none ∧
    seek_flags_for QUALITY_NORMAL 4 = AVSEEK_FLAG_ANY ∧
    seek_flags_for QUALITY_NORMAL 5 = AVSEEK_FLAG_BACKWARD ∧
    seek_flags_for QUALITY_HQ 1 = AVSEEK_FLAG_BACKWARD ∧
    seek_flags_for QUALITY_FAST 100 = AVSEEK_FLAG_ANY :=
  ⟨(claim_C6_seek_strategy QUALITY_NORMAL 0 (Or.inr (Or.inl rfl))).1 rfl,
   ((claim_C6_seek_strategy QUALITY_NORMAL 4 (Or.inr (Or.inl rfl))).2
       (by norm_num) (by norm_num [seek_position_bound])).2.2
     (Or.inr ⟨rfl, by norm_num⟩),
   ((claim_C6_seek_strategy QUALITY_NORMAL 5 (Or.inr (Or.inl rfl))).2
       (by norm_num) (by norm_num [seek_position_bound])).2.1
     (Or.inr ⟨rfl, le_refl 5⟩),
   ((claim_C6_seek_strategy QUALITY_HQ 1 (Or.inr (Or.inr rfl))).2
       (by norm_num) (by norm_num [seek_position_bound])).2.1 (Or.inl rfl),
   ((claim_C6_seek_strategy QUALITY_FAST 100 (Or.inl rfl)).2
       (by norm_num) (by norm_num [seek_position_bound])).2.2 (Or.inl rfl)⟩

/-- C9: an out-of-range quality tier is not rejected: the validation phase
proceeds, the tier is clamped to Normal, and every tier-consulting
component (stream-analysis bounds, decoder configuration, seek flags, both
tolerances, resampling-filter choice) behaves exactly as for the Normal
tier. -/
theorem claim_C9_tier_clamp (q : Int) (base : DecoderConfig)
    (dimension : Int) (position : ℚ)
    (hdim1 : 1 ≤ dimension) (hdim2 : dimension ≤ 4096) (hpos : 0 ≤ position)
    (hq : q < 0 ∨ 2 < q) :
    clampQuality q = QUALITY_NORMAL ∧
    pre_phase dimension position q true true
      = (PreOutcome.proceeding QUALITY_NORMAL, true) ∧
    analyze_params (clampQuality q) = analyze_params QUALITY_NORMAL ∧
    decoder_config base (clampQuality q) = decoder_config base QUALITY_NORMAL ∧
    seek_flags_for (clampQuality q) position
      = seek_flags_for QUALITY_NORMAL position ∧
    skip_tolerance (clampQuality q) = skip_tolerance QUALITY_NORMAL ∧
    match_tolerance (clampQuality q) = match_tolerance QUALITY_NORMAL ∧
    sws_algorithm_for (clampQuality q) = sws_algorithm_for QUALITY_NORMAL := by
  have hclamp : clampQuality q = QUALITY_NORMAL := by
    unfold clampQuality QUALITY_NORMAL
    rw [if_pos hq]
  refine ⟨hclamp, ?_, by rw [hclamp], by rw [hclamp], by rw [hclamp],
    by rw [hclamp], by rw [hclamp], by rw [hclamp]⟩
  unfold pre_phase
  rw [if_neg (by omega), if_neg (not_lt.mpr hpos), if_neg (by simp),
    if_neg (by simp), hclamp]

/-- C9 witness: the theorem applied to the out-of-range tiers 7 and -3. -/
theorem claim_C9_witness :
    clampQuality 7 = QUALITY_NORMAL ∧
    pre_phase 512 0 7 true true = (PreOutcome.proceeding QUALITY_NORMAL, true) ∧
    clampQuality (-3) = QUALITY_NORMAL :=
  ⟨(claim_C9_tier_clamp 7 ⟨1, 1, false, false, 0, 0, 0, 1, 1⟩ 512 0
      (by decide) (by decide) (le_refl 0) (Or.inr (by decide))).1,
   (claim_C9_tier_clamp 7 ⟨1, 1, false, false, 0, 0, 0, 1, 1⟩ 512 0
      (by decide) (by decide) (le_refl 0) (Or.inr (by decide))).2.1,
   (claim_C9_tier_clamp (-3) ⟨1, 1, false, false, 0, 0, 0, 1, 1⟩ 512 0
      (by decide) (by decide) (le_refl 0) (Or.inl (by decide))).1⟩

/-- An acquire against an already-decided tri-state returns the cached
result, performs no probe, and leaves the state unchanged. -/
theorem acquire_cached (e : ProbeEnv) (s : HWState) (h : s.init_done = true) :
    init_hw_device_context e s = (s.available, s, 0) := by
  unfold init_hw_device_context
  rw [if_pos h]

/-- An acquire against an undecided tri-state performs exactly one probe
and decides the tri-state. -/
theorem acquire_uninit (e : ProbeEnv) (s : HWState) (h : s.init_done = false) :
    (init_hw_device_context e s).2.2 = 1 ∧
    (init_hw_device_context e s).2.1.init_done = true := by
  unfold init_hw_device_context
  rw [if_neg (by simp [h])]
  split
  · exact ⟨rfl, rfl⟩
  · split
    · exact ⟨rfl, rfl⟩
    · exact ⟨rfl, rfl⟩

/-- Any number of acquires against a decided tri-state performs no probe
and leaves the state unchanged. -/
theorem run_hw_cached (s : HWState) (h : s.init_done = true) :
    ∀ envs : List ProbeEnv, run_hw s (envs.map HWOp.acquire) = (s, 0) := by
  intro envs
  induction envs with
  | nil => rfl
  | cons e rest ih =>
    simp only [List.map_cons, run_hw, acquire_cached e s h, ih]

/-- C7: the hardware probe executes at most once across any sequence of
acquires, whatever their outcomes; once the tri-state is decided every
later acquire returns the cached result without re-probing and without
touching the state; the cache clear resets the tri-state to uninitialized
and releases the handle; and after a clear, any nonempty sequence of
acquires re-probes exactly once. -/
theorem claim_C7_probe_at_most_once (s : HWState) (envs : List ProbeEnv)
    (e : ProbeEnv) :
    (run_hw s (envs.map HWOp.acquire)).2 ≤ 1 ∧
    (s.init_done = true → init_hw_device_context e s = (s.available, s, 0)) ∧
    (s.init_done = true → (run_hw s (envs.map HWOp.acquire)).2 = 0) ∧
    clearThumbnailCache_hw s = ⟨false, false, none⟩ ∧
    (envs ≠ [] →
      (run_hw (clearThumbnailCache_hw s) (envs.map HWOp.acquire)).2 = 1) := by
  have key : ∀ (t : HWState), t.init_done = false → ∀ (e0 : ProbeEnv)
      (rest : List ProbeEnv),
      (run_hw t ((e0 :: rest).map HWOp.acquire)).2 = 1 := by
    intro t ht e0 rest
    have h1 := acquire_uninit e0 t ht
    simp only [List.map_cons, run_hw]
    rw [run_hw_cached (init_hw_device_context e0 t).2.1 h1.2 rest]
    simp [h1.1]
  refine ⟨?_, fun h => acquire_cached e s h,
    fun h => by rw [run_hw_cached s h envs], rfl, ?_⟩
  · rcases Bool.eq_false_or_eq_true s.init_done with h | h
    · rw [run_hw_cached s h envs]
      exact Nat.zero_le 1
    · cases envs with
      | nil => simp [run_hw]
      | cons e0 rest => rw [key s h e0 rest]
  · intro hne
    cases envs with
    | nil => exact absurd rfl hne
    | cons e0 rest => exact key (clearThumbnailCache_hw s) rfl e0 rest

/-- C7 witness: the theorem applied to a decided (Available) state and two
acquires, showing zero probes; and to a cleared state with one acquire,
showing exactly one probe. -/
theorem claim_C7_witness :
    (run_hw ⟨true, true, some ()⟩
      ([⟨true, true⟩, ⟨false, true⟩].map HWOp.acquire)).2 = 0 ∧
    (run_hw (clearThumbnailCache_hw ⟨true, true, some ()⟩)
      ([⟨true, true⟩].map HWOp.acquire)).2 = 1 :=
  ⟨(claim_C7_probe_at_most_once ⟨true, true, some ()⟩
      [⟨true, true⟩, ⟨false, true⟩] ⟨true, true⟩).2.2.1 rfl,
   (claim_C7_probe_at_most_once ⟨true, true, some ()⟩
      [⟨true, true⟩] ⟨true, true⟩).2.2.2.2 (by simp)⟩

/-- The last-used refresh never changes which decoder an entry stores. -/
theorem touch_entry_codec (id now : Nat) (e : CodecCacheEntry) :
    (touch_entry id now e).codec = e.codec := by
  unfold touch_entry
  split <;> rfl

/-- C10: the codec resolver cache never stores a negative result: the
non-null invariant on cached descriptors is preserved by every call, and
when the registry lookup fails for an identifier that is not cached, the
cache is left unchanged and the registry lookup runs again on the very
next request for the same identifier (it is never answered from the
cache). -/
theorem claim_C10_no_negative_cache (find_decoder : Nat → Option Nat)
    (now now2 : Nat) (cache : List CodecCacheEntry) (id : Nat)
    (hinv : ∀ x ∈ cache, x.codec.isSome = true) :
    (∀ x ∈ (get_cached_codec find_decoder now cache id).2.1,
      x.codec.isSome = true) ∧
    (find_decoder id = none →
      cache.find? (fun x => x.codec_id == id) = none →
      get_cached_codec find_decoder now cache id = (none, cache, true) ∧
      get_cached_codec find_decoder now2 cache id = (none, cache, true)) := by
  constructor
  · intro x hx
    unfold get_cached_codec at hx
    rcases hfind : cache.find? (fun y => y.codec_id == id) with _ | y
    · rw [hfind] at hx
      rcases hfd : find_decoder id with _ | c
      · rw [hfd] at hx
        exact hinv x hx
      · rw [hfd] at hx
        simp only [List.mem_append, List.mem_singleton] at hx
        rcases hx with hx | hx
        · exact hinv x hx
        · rw [hx]
          rfl
    · rw [hfind] at hx
      simp only [List.mem_map] at hx
      obtain ⟨z, hz, hzx⟩ := hx
      rw [← hzx, touch_entry_codec]
      exact hinv z hz
  · intro h1 h2
    constructor <;> (unfold get_cached_codec; rw [h2, h1])

/-- C10 witness: the theorem applied to a registry with no decoder for
identifier 7 and an empty cache. -/
theorem claim_C10_witness :
    get_cached_codec (fun _ => none) 0 [] 7 = (none, [], true) ∧
    get_cached_codec (fun _ => none) 1 [] 7 = (none, [], true) :=
  (claim_C10_no_negative_cache (fun _ => none) 0 1 [] 7 (by simp)).2 rfl rfl

/-- Draining a run of identical frames that all fall in the skip window
only counts them; none is converted and none is accepted. -/
theorem drain_replicate_skip (conv : Frame → Bool) (dim q : Int) (pos tb : ℚ)
    (f : Frame) (h : 0 < pos ∧ frame_time tb f < pos - skip_tolerance q) :
    ∀ (k : Nat) (n : Nat),
      drain_frames conv dim q pos tb (List.replicate k f) n = (n + k, none, []) := by
  intro k
  induction k with
  | zero => intro n; simp [drain_frames]
  | succ k ih =>
    intro n
    rw [List.replicate_succ]
    simp only [drain_frames]
    rw [if_pos h, ih (n + 1)]
    refine Prod.ext ?_ rfl
    omega

/-- Unfolding step of the packet loop for a video packet whose drain ends
without accepting a frame. -/
theorem decode_loop_cons_drained (conv : Frame → Bool)
    (dim q : Int) (pos tb : ℚ) (v : Int) (p : Packet) (rest : List Packet)
    (n n1 : Nat) (cs : List Frame)
    (hn : n < MAX_FRAMES) (hs : p.stream_index = v) (hsend : p.send_ok = true)
    (hd : drain_frames conv dim q pos tb p.frames n = (n1, none, cs)) :
    decode_loop conv dim q pos tb v (p :: rest) n =
      ((decode_loop conv dim q pos tb v rest n1).1,
       (decode_loop conv dim q pos tb v rest n1).2.1,
       cs ++ (decode_loop conv dim q pos tb v rest n1).2.2) := by
  simp only [decode_loop]
  rw [if_pos hn, if_pos ⟨hs, hsend⟩, hd]

/-- A drain in which no frame satisfies the accept window decodes every
frame of the packet, converts none, and accepts none. -/
theorem drain_no_accept (conv : Frame → Bool) (dim q : Int) (pos tb : ℚ) :
    ∀ (l : List Frame) (n : Nat),
      (∀ f ∈ l, ¬(pos = 0 ∨ pos - match_tolerance q ≤ frame_time tb f)) →
      drain_frames conv dim q pos tb l n = (n + l.length, none, []) := by
  intro l
  induction l with
  | nil => intro n _; simp [drain_frames]
  | cons f rest ih =>
    intro n h
    have hf := h f (List.mem_cons_self f rest)
    simp only [drain_frames]
    by_cases h1 : 0 < pos ∧ frame_time tb f < pos - skip_tolerance q
    · rw [if_pos h1, ih (n + 1) (fun g hg => h g (List.mem_cons_of_mem f hg))]
      refine Prod.ext ?_ rfl
      simp [List.length_cons]
      omega
    · rw [if_neg h1, if_neg hf,
        ih (n + 1) (fun g hg => h g (List.mem_cons_of_mem f hg))]
      refine Prod.ext ?_ rfl
      simp [List.length_cons]
      omega

/-- Generalized safety invariant of the packet loop on a stream with at
most one frame per packet and no acceptable frame: the result is the NULL
failure, the frames_decoded counter never passes MAX_FRAMES, and nothing
is ever converted. -/
theorem decode_no_accept_aux (conv : Frame → Bool) (dim q : Int) (pos tb : ℚ)
    (v : Int) :
    ∀ (ps : List Packet) (n : Nat), n ≤ MAX_FRAMES →
      (∀ p ∈ ps, p.frames.length ≤ 1) →
      (∀ p ∈ ps, ∀ f ∈ p.frames,
        ¬(pos = 0 ∨ pos - match_tolerance q ≤ frame_time tb f)) →
      (decode_loop conv dim q pos tb v ps n).1 = none ∧
      (decode_loop conv dim q pos tb v ps n).2.1 ≤ MAX_FRAMES ∧
      (decode_loop conv dim q pos tb v ps n).2.2 = [] := by
  intro ps
  induction ps with
  | nil => intro n hn _ _; simp [decode_loop]; exact hn
  | cons p rest ih =>
    intro n hn hone hacc
    have hone' : ∀ x ∈ rest, x.frames.length ≤ 1 :=
      fun x hx => hone x (List.mem_cons_of_mem p hx)
    have hacc' : ∀ x ∈ rest, ∀ f ∈ x.frames,
        ¬(pos = 0 ∨ pos - match_tolerance q ≤ frame_time tb f) :=
      fun x hx => hacc x (List.mem_cons_of_mem p hx)
    simp only [decode_loop]
    by_cases hn300 : n < MAX_FRAMES
    · rw [if_pos hn300]
      by_cases hp : p.stream_index = v ∧ p.send_ok = true
      · rw [if_pos hp]
        have hd := drain_no_accept conv dim q pos tb p.frames n
          (hacc p (List.mem_cons_self p rest))
        rw [hd]
        have hlen := hone p (List.mem_cons_self p rest)
        have hn' : n + p.frames.length ≤ MAX_FRAMES := by
          unfold MAX_FRAMES at *
          omega
        obtain ⟨ha, hb, hc⟩ := ih (n + p.frames.length) hn' hone' hacc'
        exact ⟨ha, hb, by simp [hc]⟩
      · rw [if_neg hp]
        exact ih n hn hone' hacc'
    · rw [if_neg hn300]
      exact ⟨rfl, hn, rfl⟩

/-- C1: on the synthetic stream with decoded-frame timestamps
[0.0, 1.0, 2.0, 5.0, 9.0] s, target 4.0 s, Normal tier (skip_tolerance
1.5, match_tolerance 1.0), the loop returns the converted frame at 5.0 s
after decoding 4 frames; the only frame ever handed to frame_to_bitmap is
the one at 5.0 s; every frame with frame_time below 2.5 (= 4.0 − 1.5) is
discarded without conversion; the frame at 2.0 s is never accepted. -/
theorem claim_C1_scenario :
    decode_loop (fun _ => true) 64 QUALITY_NORMAL 4 1 0 c1_packets 0
      = (some (64, 36), 4, [c1_f5]) ∧
    frame_time 1 c1_f5 = 5 ∧
    scaled_dims c1_f5.width c1_f5.height 64 = (64, 36) ∧
    (∀ f ∈ [c1_f0, c1_f1, c1_f2],
      frame_time 1 f < 4 - skip_tolerance QUALITY_NORMAL ∧ f ≠ c1_f5) ∧
    frame_time 1 c1_f2 = 2 ∧ c1_f2 ≠ c1_f5 := by
  refine ⟨?_, ?_, ?_, ?_, ?_, ?_⟩
  · simp only [c1_packets, decode_loop, drain_frames]
    norm_num [frame_time, skip_tolerance, match_tolerance,
      QUALITY_FAST, QUALITY_NORMAL, QUALITY_HQ,
      MAX_FRAMES, c1_f0, c1_f1, c1_f2, c1_f5, c1_f9, scaled_dims_160_90_64]
  · norm_num [frame_time, c1_f5]
  · norm_num [c1_f5, scaled_dims_160_90_64]
  · intro f hf
    simp only [List.mem_cons, List.mem_singleton] at hf
    rcases hf with h | h | h | h
    all_goals first
      | (subst h
         constructor
         · norm_num [frame_time, skip_tolerance, QUALITY_FAST,
             QUALITY_NORMAL, QUALITY_HQ, c1_f0, c1_f1, c1_f2]
         · simp [c1_f0, c1_f1, c1_f2, c1_f5])
      | simp at h
  · norm_num [frame_time, c1_f2]
  · simp [c1_f2, c1_f5]

/-- C2 counterexample: a single video packet from which the decoder drains
301 frames, none acceptable (target 10.0 s, every frame_time 0.0), makes
the loop decode 301 frames — more than the MAX_FRAMES = 300 safety limit
the claim asserts as a bound on decoded frames (the limit is only checked
between packets) — even though the call still terminates and returns the
NULL failure result. -/
theorem claim_C2_cex :
    decode_loop (fun _ => true) 64 QUALITY_NORMAL 10 1 0 c2_packets 0
      = (none, 301, []) ∧ MAX_FRAMES < 301 := by
  have hskip : (0:ℚ) < 10 ∧
      frame_time 1 c2_bad_frame < 10 - skip_tolerance QUALITY_NORMAL := by
    norm_num [frame_time, c2_bad_frame, skip_tolerance, QUALITY_NORMAL,
      QUALITY_FAST, QUALITY_HQ]
  have hd : drain_frames (fun _ => true) 64 QUALITY_NORMAL 10 1
      (Packet.frames ⟨0, true, List.replicate 301 c2_bad_frame⟩) 0
      = (301, none, []) :=
    drain_replicate_skip (fun _ => true) 64 QUALITY_NORMAL 10 1
      c2_bad_frame hskip 301 0
  constructor
  · rw [show c2_packets = [⟨0, true, List.replicate 301 c2_bad_frame⟩] from rfl]
    rw [decode_loop_cons_drained (fun _ => true) 64 QUALITY_NORMAL 10 1 0
      ⟨0, true, List.replicate 301 c2_bad_frame⟩ [] 0 301 [] (by decide)
      rfl rfl hd]
    rfl
  · decide

/-- C2 (amended): on any stream in which no decoded frame satisfies the
accept window and every packet yields at most one frame, the loop
terminates (it is a total function of the packet list), decodes at most
MAX_FRAMES = 300 frames, converts nothing, and the call returns the NULL
failure result. (Without the one-frame-per-packet bound the limit is only
checked between packets, so the count can overshoot by the surplus frames
of the final packet, as the counterexample shows.) -/
theorem claim_C2_safety (conv : Frame → Bool) (dim q : Int) (pos tb : ℚ)
    (v : Int) (ps : List Packet)
    (hone : ∀ p ∈ ps, p.frames.length ≤ 1)
    (hacc : ∀ p ∈ ps, ∀ f ∈ p.frames,
      ¬(pos = 0 ∨ pos - match_tolerance q ≤ frame_time tb f)) :
    (decode_loop conv dim q pos tb v ps 0).1 = none ∧
    (decode_loop conv dim q pos tb v ps 0).2.1 ≤ MAX_FRAMES ∧
    (decode_loop conv dim q pos tb v ps 0).2.2 = [] :=
  decode_no_accept_aux conv dim q pos tb v ps 0 (Nat.zero_le _) hone hacc

/-- C2 witness: the amended theorem applied to a one-packet stream whose
only frame (timestamp 0.0 s) never reaches the accept window for target
10.0 s. -/
theorem claim_C2_safety_witness :
    (decode_loop (fun _ => true) 64 QUALITY_NORMAL 10 1 0
      [⟨0, true, [⟨some 0, none, 640, 480⟩]⟩] 0).1 = none :=
  (claim_C2_safety (fun _ => true) 64 QUALITY_NORMAL 10 1 0
    [⟨0, true, [⟨some 0, none, 640, 480⟩]⟩]
    (by simp)
    (by
      intro p hp f hf
      simp only [List.mem_singleton] at hp
      subst hp
      simp only [List.mem_singleton] at hf
      subst hf
      norm_num [frame_time, match_tolerance, QUALITY_NORMAL, QUALITY_FAST,
        QUALITY_HQ])).1

/-- C4 counterexample: the frame at 5.0 s is accepted for target 5.0 s but
its conversion fails (c4_conv is false on it); the loop nevertheless goes
on, accepts the frame at 6.0 s in the next packet, converts it, and the
call returns that bitmap — the conversion failure was not fatal and
further frames were tried, contradicting the claim. -/
theorem claim_C4_cex :
    decode_loop c4_conv 64 QUALITY_NORMAL 5 1 0 c4_packets 0
      = (some (64, 32), 2, [c4_fa, c4_fb]) ∧
    c4_conv c4_fa = false ∧ frame_time 1 c4_fa = 5 := by
  refine ⟨?_, ?_, ?_⟩
  · simp only [c4_packets, decode_loop, drain_frames]
    norm_num [frame_time, skip_tolerance, match_tolerance,
      QUALITY_FAST, QUALITY_NORMAL, QUALITY_HQ,
      MAX_FRAMES, c4_conv, c4_fa, c4_fb, scaled_dims_200_100_64]
  · simp [c4_conv, c4_fa, c4_fb]
  · norm_num [frame_time, c4_fa]

/-- C4 (amended): when an accepted frame's conversion fails, the call does
not abort: the packet loop continues with the remaining packets exactly as
if the packet had yielded nothing acceptable (the failing frame is merely
recorded as having been handed to frame_to_bitmap), and the call fails
only if no later frame converts; no fallback unscaled output is ever
produced (a conversion failure contributes no bitmap). -/
theorem claim_C4_conversion_failure_continues (conv : Frame → Bool)
    (dim q : Int) (pos tb : ℚ) (v : Int) (p : Packet) (rest : List Packet)
    (n n1 : Nat) (cs : List Frame)
    (hn : n < MAX_FRAMES) (hs : p.stream_index = v) (hsend : p.send_ok = true)
    (hd : drain_frames conv dim q pos tb p.frames n = (n1, some none, cs)) :
    decode_loop conv dim q pos tb v (p :: rest) n =
      ((decode_loop conv dim q pos tb v rest n1).1,
       (decode_loop conv dim q pos tb v rest n1).2.1,
       cs ++ (decode_loop conv dim q pos tb v rest n1).2.2) := by
  simp only [decode_loop]
  rw [if_pos hn, if_pos ⟨hs, hsend⟩, hd]

/-- C4 witness: the amended theorem applied to the packet carrying the
frame whose conversion fails, showing the loop reduces to the loop on the
remaining packets. -/
theorem claim_C4_witness :
    decode_loop c4_conv 64 QUALITY_NORMAL 5 1 0 [⟨0, true, [c4_fa]⟩] 0 =
      ((decode_loop c4_conv 64 QUALITY_NORMAL 5 1 0 [] 1).1,
       (decode_loop c4_conv 64 QUALITY_NORMAL 5 1 0 [] 1).2.1,
       [c4_fa] ++ (decode_loop c4_conv 64 QUALITY_NORMAL 5 1 0 [] 1).2.2) :=
  claim_C4_conversion_failure_continues c4_conv 64 QUALITY_NORMAL 5 1 0
    ⟨0, true, [c4_fa]⟩ [] 0 1 [c4_fa] (by decide) rfl rfl
    (by
      simp only [drain_frames]
      norm_num [frame_time, skip_tolerance, match_tolerance,
        QUALITY_FAST, QUALITY_NORMAL, QUALITY_HQ, c4_conv, c4_fa, c4_fb])

/-- Error analysis of the float32 size computation for the scaled
(landscape-orientation) case: with a the longer and b the shorter side and
the requested bound t at most 4096, the rounded width product lies in
(t - 1, t + 1) and the rounded height product lies in [0, t + 1) — three
rounding errors of at most 2⁻²⁴ each cannot move the products a whole
pixel past the bound. -/
theorem fl32_scale_core (a b t : Int) (ha : 1 ≤ a) (hb : 1 ≤ b) (hba : b ≤ a)
    (ht1 : 1 ≤ t) (ht2 : t ≤ 4096) :
    (0 ≤ fl32 (fl32 (a:ℚ) * fl32 (fl32 (t:ℚ) / fl32 (a:ℚ))) ∧
     fl32 (fl32 (a:ℚ) * fl32 (fl32 (t:ℚ) / fl32 (a:ℚ))) < (t:ℚ) + 1 ∧
     (t:ℚ) - 1 < fl32 (fl32 (a:ℚ) * fl32 (fl32 (t:ℚ) / fl32 (a:ℚ)))) ∧
    (0 ≤ fl32 (fl32 (b:ℚ) * fl32 (fl32 (t:ℚ) / fl32 (a:ℚ))) ∧
     fl32 (fl32 (b:ℚ) * fl32 (fl32 (t:ℚ) / fl32 (a:ℚ))) < (t:ℚ) + 1) := by
  have haQ : (1:ℚ) ≤ (a:ℚ) := by exact_mod_cast ha
  have hbQ : (1:ℚ) ≤ (b:ℚ) := by exact_mod_cast hb
  have hbaQ : (b:ℚ) ≤ (a:ℚ) := by exact_mod_cast hba
  have ht1Q : (1:ℚ) ≤ (t:ℚ) := by exact_mod_cast ht1
  have ht2Q : (t:ℚ) ≤ 4096 := by exact_mod_cast ht2
  have haP : (0:ℚ) < (a:ℚ) := by linarith
  have htP : (0:ℚ) < (t:ℚ) := by linarith
  have hbP : (0:ℚ) < (b:ℚ) := by linarith
  have hv : (2:ℚ)^(-24:Int) = 1/16777216 := by norm_num
  have hT : fl32 ((t:ℚ)) = (t:ℚ) := fl32_intCast t (by omega) (by omega)
  rw [hT]
  obtain ⟨hW1, hW2⟩ := fl32_bounds ((a:ℚ)) haP
  rw [hv] at hW1 hW2
  generalize hWg : fl32 ((a:ℚ)) = W
  rw [hWg] at hW1 hW2
  have hWpos : (0:ℚ) < W := by linarith
  obtain ⟨hS1, hS2⟩ := fl32_bounds ((t:ℚ)/W) (div_pos htP hWpos)
  rw [hv] at hS1 hS2
  generalize hSg : fl32 ((t:ℚ)/W) = S
  rw [hSg] at hS1 hS2
  have hQpos : (0:ℚ) < (t:ℚ)/W := div_pos htP hWpos
  have hSpos : (0:ℚ) < S := by linarith
  have hWQ : W * ((t:ℚ)/W) = (t:ℚ) := by
    rw [mul_comm, div_mul_cancel₀ _ (ne_of_gt hWpos)]
  have hWS_up : W * S ≤ (t:ℚ) * (1 + 1/16777216) := by
    calc W * S ≤ W * (((t:ℚ)/W) * (1 + 1/16777216)) :=
          mul_le_mul_of_nonneg_left hS2 (le_of_lt hWpos)
      _ = (W * ((t:ℚ)/W)) * (1 + 1/16777216) := by ring
      _ = (t:ℚ) * (1 + 1/16777216) := by rw [hWQ]
  have hWS_lo : (t:ℚ) * (1 - 1/16777216) ≤ W * S := by
    calc (t:ℚ) * (1 - 1/16777216) = (W * ((t:ℚ)/W)) * (1 - 1/16777216) := by rw [hWQ]
      _ = W * (((t:ℚ)/W) * (1 - 1/16777216)) := by ring
      _ ≤ W * S := mul_le_mul_of_nonneg_left hS1 (le_of_lt hWpos)
  have hWSpos : (0:ℚ) < W * S := mul_pos hWpos hSpos
  obtain ⟨hA1, hA2⟩ := fl32_bounds (W * S) hWSpos
  rw [hv] at hA1 hA2
  generalize hPWg : fl32 (W * S) = PW
  rw [hPWg] at hA1 hA2
  obtain ⟨hV1, hV2⟩ := fl32_bounds ((b:ℚ)) hbP
  rw [hv] at hV1 hV2
  generalize hVg : fl32 ((b:ℚ)) = V
  rw [hVg] at hV1 hV2
  have hVpos : (0:ℚ) < V := by linarith
  have hVSpos : (0:ℚ) < V * S := mul_pos hVpos hSpos
  obtain ⟨hB1, hB2⟩ := fl32_bounds (V * S) hVSpos
  rw [hv] at hB1 hB2
  generalize hPVg : fl32 (V * S) = PV
  rw [hPVg] at hB1 hB2
  have hVS_key : (V * S) * (1 - 1/16777216)
      ≤ (t:ℚ) * (1 + 1/16777216) * (1 + 1/16777216) := by
    have s1 : V ≤ (a:ℚ) * (1 + 1/16777216) :=
      le_trans hV2 (mul_le_mul_of_nonneg_right hbaQ (by norm_num))
    have s2 : V * S ≤ ((a:ℚ) * (1 + 1/16777216)) * S :=
      mul_le_mul_of_nonneg_right s1 (le_of_lt hSpos)
    have s3 : ((a:ℚ) * (1 - 1/16777216)) * S ≤ W * S :=
      mul_le_mul_of_nonneg_right hW1 (le_of_lt hSpos)
    calc (V * S) * (1 - 1/16777216)
        ≤ (((a:ℚ) * (1 + 1/16777216)) * S) * (1 - 1/16777216) :=
          mul_le_mul_of_nonneg_right s2 (by norm_num)
      _ = (1 + 1/16777216) * (((a:ℚ) * (1 - 1/16777216)) * S) := by ring
      _ ≤ (1 + 1/16777216) * (W * S) :=
          mul_le_mul_of_nonneg_left s3 (by norm_num)
      _ ≤ (1 + 1/16777216) * ((t:ℚ) * (1 + 1/16777216)) :=
          mul_le_mul_of_nonneg_left hWS_up (by norm_num)
      _ = (t:ℚ) * (1 + 1/16777216) * (1 + 1/16777216) := by ring
  refine ⟨⟨?_, ?_, ?_⟩, ?_, ?_⟩
  · have := mul_pos hWSpos (show (0:ℚ) < 1 - 1/16777216 by norm_num)
    linarith
  · have h1 : PW ≤ (t:ℚ) * ((1 + 1/16777216) * (1 + 1/16777216)) := by
      calc PW ≤ (W * S) * (1 + 1/16777216) := hA2
        _ ≤ ((t:ℚ) * (1 + 1/16777216)) * (1 + 1/16777216) :=
            mul_le_mul_of_nonneg_right hWS_up (by norm_num)
        _ = (t:ℚ) * ((1 + 1/16777216) * (1 + 1/16777216)) := by ring
    have hc2 : ((1:ℚ) + 1/16777216) * (1 + 1/16777216)
        = 281475010265089/281474976710656 := by norm_num
    rw [hc2] at h1
    linarith [ht2Q]
  · have h1 : (t:ℚ) * ((1 - 1/16777216) * (1 - 1/16777216)) ≤ PW := by
      calc (t:ℚ) * ((1 - 1/16777216) * (1 - 1/16777216))
          = ((t:ℚ) * (1 - 1/16777216)) * (1 - 1/16777216) := by ring
        _ ≤ (W * S) * (1 - 1/16777216) :=
            mul_le_mul_of_nonneg_right hWS_lo (by norm_num)
        _ ≤ PW := hA1
    have hc2 : ((1:ℚ) - 1/16777216) * (1 - 1/16777216)
        = 281474943156225/281474976710656 := by norm_num
    rw [hc2] at h1
    linarith [ht2Q]
  · have := mul_pos hVSpos (show (0:ℚ) < 1 - 1/16777216 by norm_num)
    linarith
  · have h2 : PV * (1 - 1/16777216)
        ≤ (t:ℚ) * ((1 + 1/16777216) * (1 + 1/16777216) * (1 + 1/16777216)) := by
      calc PV * (1 - 1/16777216)
          ≤ ((V * S) * (1 + 1/16777216)) * (1 - 1/16777216) :=
            mul_le_mul_of_nonneg_right hB2 (by norm_num)
        _ = ((V * S) * (1 - 1/16777216)) * (1 + 1/16777216) := by ring
        _ ≤ ((t:ℚ) * (1 + 1/16777216) * (1 + 1/16777216)) * (1 + 1/16777216) :=
            mul_le_mul_of_nonneg_right hVS_key (by norm_num)
        _ = (t:ℚ) * ((1 + 1/16777216) * (1 + 1/16777216) * (1 + 1/16777216)) := by ring
    have hc3 : ((1:ℚ) + 1/16777216) * (1 + 1/16777216) * (1 + 1/16777216)
        = 4722367327294625677313/4722366482869645213696 := by norm_num
    rw [hc3] at h2
    have h3 : (t:ℚ) * (4722367327294625677313/4722366482869645213696)
        < ((t:ℚ) + 1) * (1 - 1/16777216) := by linarith [ht2Q]
    linarith [h2, h3]

/-- C8: for any source frame with positive dimensions and requested
max-dimension t in [1, 4096], the output buffer of frame_to_bitmap —
computed in single-precision float exactly as the program does — satisfies
max(width, height) ≤ t and min(width, height) ≥ 1; a source already within
the bound is passed through unchanged (aspect ratio exactly preserved);
when scaling occurs the constrained (larger) side lands on t or one pixel
below it (float32 rounding can lose a single pixel, as at source 23x10
with t = 7, where the program and the model both produce width 6). -/
theorem claim_C8_output_dims (fw fh t : Int)
    (hfw : 1 ≤ fw) (hfh : 1 ≤ fh) (ht1 : 1 ≤ t) (ht2 : t ≤ 4096) :
    (scaled_dims fw fh t).1 ≤ t ∧ (scaled_dims fw fh t).2 ≤ t ∧
    1 ≤ (scaled_dims fw fh t).1 ∧ 1 ≤ (scaled_dims fw fh t).2 ∧
    (fh ≤ fw → fw ≤ t → scaled_dims fw fh t = (fw, fh)) ∧
    (fw < fh → fh ≤ t → scaled_dims fw fh t = (fw, fh)) ∧
    (fh ≤ fw → t < fw → t - 1 ≤ (scaled_dims fw fh t).1) ∧
    (fw < fh → t < fh → t - 1 ≤ (scaled_dims fw fh t).2) := by
  have hpos : 0 < fw ∧ 0 < fh := ⟨by omega, by omega⟩
  have hsd : scaled_dims fw fh t =
      (clamp1 (cint (fl32 (fl32 (fw:ℚ) * pick_scale fw fh t))),
       clamp1 (cint (fl32 (fl32 (fh:ℚ) * pick_scale fw fh t)))) := by
    simp only [scaled_dims]
    rw [if_pos hpos]
  rcases le_or_lt fh fw with hlf | hlf
  · rcases lt_or_le t fw with htw | htw
    · have hps : pick_scale fw fh t = fl32 (fl32 (t:ℚ) / fl32 (fw:ℚ)) := by
        unfold pick_scale
        rw [if_pos hlf, if_pos htw]
      obtain ⟨⟨hA0, hA1, hA2⟩, hB0, hB1⟩ := fl32_scale_core fw fh t hfw hfh hlf ht1 ht2
      rw [hsd, hps]
      dsimp only
      have hw_le : cint (fl32 (fl32 (fw:ℚ) * fl32 (fl32 (t:ℚ) / fl32 (fw:ℚ)))) ≤ t :=
        cint_le_of_lt _ t hA0 hA1
      have hw_lo : t - 1 ≤ cint (fl32 (fl32 (fw:ℚ) * fl32 (fl32 (t:ℚ) / fl32 (fw:ℚ)))) :=
        le_cint _ (t-1) hA0 (by push_cast; linarith)
      have hh_le : cint (fl32 (fl32 (fh:ℚ) * fl32 (fl32 (t:ℚ) / fl32 (fw:ℚ)))) ≤ t :=
        cint_le_of_lt _ t hB0 hB1
      refine ⟨clamp1_le _ t hw_le ht1, clamp1_le _ t hh_le ht1,
        one_le_clamp1 _, one_le_clamp1 _, ?_, ?_, ?_, ?_⟩
      · intro _ h
        exfalso
        omega
      · intro h _
        exfalso
        omega
      · intro _ _
        exact le_trans hw_lo (le_clamp1 _)
      · intro h _
        exfalso
        omega
    · have hps : pick_scale fw fh t = 1 := by
        unfold pick_scale
        rw [if_pos hlf, if_neg (not_lt.mpr htw)]
      have hfwE : fl32 ((fw:ℚ)) = ((fw:ℚ)) := fl32_intCast fw (by omega) (by omega)
      have hfhE : fl32 ((fh:ℚ)) = ((fh:ℚ)) := fl32_intCast fh (by omega) (by omega)
      have hid : scaled_dims fw fh t = (fw, fh) := by
        rw [hsd, hps]
        simp only [mul_one, hfwE, hfhE, cint_intCast]
        rw [clamp1_of_one_le fw hfw, clamp1_of_one_le fh hfh]
      rw [hid]
      refine ⟨htw, le_trans hlf htw, hfw, hfh, fun _ _ => rfl, ?_, ?_, ?_⟩
      · intro h _
        exfalso
        omega
      · intro _ h
        exfalso
        omega
      · intro h _
        exfalso
        omega
  · rcases lt_or_le t fh with hth | hth
    · have hps : pick_scale fw fh t = fl32 (fl32 (t:ℚ) / fl32 (fh:ℚ)) := by
        unfold pick_scale
        rw [if_neg (not_le.mpr hlf), if_pos hth]
      obtain ⟨⟨hA0, hA1, hA2⟩, hB0, hB1⟩ :=
        fl32_scale_core fh fw t hfh hfw (le_of_lt hlf) ht1 ht2
      rw [hsd, hps]
      dsimp only
      have hh_le : cint (fl32 (fl32 (fh:ℚ) * fl32 (fl32 (t:ℚ) / fl32 (fh:ℚ)))) ≤ t :=
        cint_le_of_lt _ t hA0 hA1
      have hh_lo : t - 1 ≤ cint (fl32 (fl32 (fh:ℚ) * fl32 (fl32 (t:ℚ) / fl32 (fh:ℚ)))) :=
        le_cint _ (t-1) hA0 (by push_cast; linarith)
      have hw_le : cint (fl32 (fl32 (fw:ℚ) * fl32 (fl32 (t:ℚ) / fl32 (fh:ℚ)))) ≤ t :=
        cint_le_of_lt _ t hB0 hB1
      refine ⟨clamp1_le _ t hw_le ht1, clamp1_le _ t hh_le ht1,
        one_le_clamp1 _, one_le_clamp1 _, ?_, ?_, ?_, ?_⟩
      · intro h _
        exfalso
        omega
      · intro _ h
        exfalso
        omega
      · intro h _
        exfalso
        omega
      · intro _ _
        exact le_trans hh_lo (le_clamp1 _)
    · have hps : pick_scale fw fh t = 1 := by
        unfold pick_scale
        rw [if_neg (not_le.mpr hlf), if_neg (not_lt.mpr hth)]
      have hfwE : fl32 ((fw:ℚ)) = ((fw:ℚ)) := fl32_intCast fw (by omega) (by omega)
      have hfhE : fl32 ((fh:ℚ)) = ((fh:ℚ)) := fl32_intCast fh (by omega) (by omega)
      have hid : scaled_dims fw fh t = (fw, fh) := by
        rw [hsd, hps]
        simp only [mul_one, hfwE, hfhE, cint_intCast]
        rw [clamp1_of_one_le fw hfw, clamp1_of_one_le fh hfh]
      rw [hid]
      refine ⟨le_trans (le_of_lt hlf) hth, hth, hfw, hfh, ?_, fun _ _ => rfl, ?_, ?_⟩
      · intro h _
        exfalso
        omega
      · intro _ h
        exfalso
        omega
      · intro _ h
        exfalso
        omega

/-- C8 witness: the theorem applied to a 1920x1080 source at requested
dimension 512, including the one-pixel lower bound on the scaled width. -/
theorem claim_C8_witness :
    (scaled_dims 1920 1080 512).1 ≤ 512 ∧
    (scaled_dims 1920 1080 512).2 ≤ 512 ∧
    1 ≤ (scaled_dims 1920 1080 512).1 ∧
    1 ≤ (scaled_dims 1920 1080 512).2 ∧
    511 ≤ (scaled_dims 1920 1080 512).1 :=
  ⟨(claim_C8_output_dims 1920 1080 512 (by decide) (by decide) (by decide)
      (by decide)).1,
   (claim_C8_output_dims 1920 1080 512 (by decide) (by decide) (by decide)
      (by decide)).2.1,
   (claim_C8_output_dims 1920 1080 512 (by decide) (by decide) (by decide)
      (by decide)).2.2.1,
   (claim_C8_output_dims 1920 1080 512 (by decide) (by decide) (by decide)
      (by decide)).2.2.2.1,
   (claim_C8_output_dims 1920 1080 512 (by decide) (by decide) (by decide)
      (by decide)).2.2.2.2.2.2.1 (by decide) (by decide)⟩

end Thumb
